import Mathlib

/-!
Shallow embedding of the vacation-tracking backend (vacay/backend):
the pure date utilities in `utils.py` and the service/storage logic in
`vacation_service.py` and `db_service.py`. Python `datetime.date` values
are modelled by a `Date` structure (proleptic Gregorian calendar) with an
explicit validity predicate; database state is modelled by explicit lists
of employee and vacation-request records; functions that raise
`ValueError` (or crash on a NULL field) return `Except`.
-/

namespace Vacay

/-- Model of Python `datetime.date`: a year/month/day triple. Python dates
are always valid calendar dates; validity is tracked by `Date.ValidB`. -/
structure Date where
  year : Nat
  month : Nat
  day : Nat
deriving DecidableEq, Repr

/-- Gregorian leap-year rule (as in `calendar.isleap`). -/
def isLeap (y : Nat) : Bool :=
  y % 4 == 0 && (y % 100 != 0 || y % 400 == 0)

/-- Number of days in a month of a given year. -/
def daysInMonth (y m : Nat) : Nat :=
  match m with
  | 1 => 31 | 2 => if isLeap y then 29 else 28
  | 3 => 31 | 4 => 30 | 5 => 31 | 6 => 30
  | 7 => 31 | 8 => 31 | 9 => 30 | 10 => 31
  | 11 => 30 | 12 => 31
  | _ => 0

/-- Days in the months of year `y` strictly before month `m`. -/
def daysBeforeMonth (y m : Nat) : Nat :=
  (match m with
   | 1 => 0 | 2 => 31 | 3 => 59 | 4 => 90 | 5 => 120 | 6 => 151
   | 7 => 181 | 8 => 212 | 9 => 243 | 10 => 273 | 11 => 304 | 12 => 334
   | _ => 0)
  + (if 3 ≤ m && isLeap y then 1 else 0)

/-- Days in all years strictly before year `y` (proleptic Gregorian). -/
def daysBeforeYear (y : Nat) : Nat :=
  365 * (y - 1) + (y - 1) / 4 - (y - 1) / 100 + (y - 1) / 400

/-- Python `date.toordinal`: day number with 0001-01-01 as day 1. -/
def Date.toOrdinal (d : Date) : Nat :=
  daysBeforeYear d.year + daysBeforeMonth d.year d.month + d.day

/-- Python `date.weekday`: Monday = 0 … Sunday = 6. -/
def Date.weekday (d : Date) : Nat :=
  (d.toOrdinal + 6) % 7

/-- Boolean validity of a `Date` as a calendar date. -/
def Date.ValidB (d : Date) : Bool :=
  1 ≤ d.year && 1 ≤ d.month && d.month ≤ 12 && 1 ≤ d.day && d.day ≤ daysInMonth d.year d.month

/-- Validity of a `Date` as a calendar date (what Python guarantees). -/
def Date.Valid (d : Date) : Prop := d.ValidB = true

instance (d : Date) : Decidable d.Valid := by
  unfold Date.Valid; infer_instance

/-- Python `<` on dates: lexicographic on (year, month, day). -/
def Date.blt (a b : Date) : Bool :=
  a.year < b.year ||
    (a.year == b.year && (a.month < b.month ||
      (a.month == b.month && a.day < b.day)))

/-- Python `<=` on dates: lexicographic on (year, month, day). -/
def Date.ble (a b : Date) : Bool :=
  a.year < b.year ||
    (a.year == b.year && (a.month < b.month ||
      (a.month == b.month && a.day ≤ b.day)))

/-- Python `min` of two dates (returns the first argument on ties). -/
def Date.minD (a b : Date) : Date :=
  if Date.ble a b then a else b

/-- Successor day: `d + timedelta(days=1)` for a valid date. -/
def nextDay (d : Date) : Date :=
  if d.day < daysInMonth d.year d.month then ⟨d.year, d.month, d.day + 1⟩
  else if d.month < 12 then ⟨d.year, d.month + 1, 1⟩
  else ⟨d.year + 1, 1, 1⟩

/-- Predecessor day: `d - timedelta(days=1)` for a valid date. -/
def prevDay (d : Date) : Date :=
  if 1 < d.day then ⟨d.year, d.month, d.day - 1⟩
  else if 1 < d.month then ⟨d.year, d.month - 1, daysInMonth d.year (d.month - 1)⟩
  else ⟨d.year - 1, 12, 31⟩

/-- Python `d + timedelta(days=n)` for `n ≥ 0`. -/
def addDays : Date → Nat → Date
  | d, 0 => d
  | d, n + 1 => addDays (nextDay d) n

/-- Python `d - timedelta(days=n)` for `n ≥ 0`. -/
def subDays : Date → Nat → Date
  | d, 0 => d
  | d, n + 1 => subDays (prevDay d) n

/-- The `while current <= end_date` loop of `calculate_business_days`
(utils.py lines 14-21), run for `fuel` iterations at most. For valid dates
the fuel passed by `calculate_business_days` is exactly the number of
iterations the Python loop performs. -/
def bdLoop : Nat → Date → Date → List Date → Nat
  | 0, _, _, _ => 0
  | fuel + 1, cur, e, holidays =>
    if Date.ble cur e then
      (if cur.weekday < 5 && !holidays.contains cur then 1 else 0)
        + bdLoop fuel (nextDay cur) e holidays
    else 0

/-- utils.py `calculate_business_days`: business days in `[start_date,
end_date]`, excluding weekends (weekday 5 and 6) and the given holidays. -/
def calculate_business_days (start_date end_date : Date) (holidays : List Date) : Nat :=
  if Date.blt end_date start_date then 0
  else bdLoop (end_date.toOrdinal + 1 - start_date.toOrdinal) start_date end_date holidays

/-- utils.py `get_corporate_holidays`: the six corporate holidays of a year,
in the order the Python code appends them: New Year, Independence Day,
Christmas, then the three floating holidays. `(w + 1) % 7`, `(7 - w) % 7`
and `(3 - w) % 7` are Python's nonnegative `%` on values `w ≤ 6`; the last
is written `(10 - w) % 7` to stay nonnegative in `Nat`. -/
def get_corporate_holidays (year : Nat) : List Date :=
  let may_last : Date := ⟨year, 5, 31⟩
  let memorial_day := subDays may_last ((may_last.weekday + 1) % 7)
  let sept_first : Date := ⟨year, 9, 1⟩
  let labor_day := addDays sept_first ((7 - sept_first.weekday) % 7)
  let nov_first : Date := ⟨year, 11, 1⟩
  let first_thursday := addDays nov_first ((10 - nov_first.weekday) % 7)
  let thanksgiving := addDays first_thursday 21
  [⟨year, 1, 1⟩, ⟨year, 7, 4⟩, ⟨year, 12, 25⟩, memorial_day, labor_day, thanksgiving]

/-- utils.py `calculate_vacation_accrued` with the `current_date` argument
made explicit (Python defaults it to today). Returns a Python `int`. -/
def calculate_vacation_accrued (hire_date current_date : Date) : Int :=
  if Date.blt current_date hire_date then 0
  else
    let months : Int :=
      ((current_date.year : Int) - hire_date.year) * 12
        + (current_date.month : Int) - hire_date.month
        - (if current_date.day < hire_date.day then 1 else 0)
    max 0 months

/-- Employee row (db_service.py): only the fields this logic reads.
`hire_date` is NULL until the employee sets it (`get_or_create_employee`
inserts without it), hence `Option`. -/
structure Employee where
  id : Int
  hire_date : Option Date
deriving DecidableEq, Repr

/-- vacation_requests row. `status` defaults to `approved` on insert. -/
structure VacationRequest where
  id : Int
  employee_id : Int
  vacation_type : String
  start_date : Date
  end_date : Date
  business_days : Int
  status : String
  notes : String
deriving DecidableEq, Repr

/-- The balance dictionary returned by `db_service.get_vacation_balance`. -/
structure Balance where
  vacation_accrued : Int
  vacation_used : Int
  vacation_available : Int
  vacation_carryover : Int
  optional_holidays_used : Int
  optional_holidays_available : Int
deriving DecidableEq, Repr

/-- Failure modes of the service layer. The first five are the
`ValueError`s raised by vacation_service.py; `nullHireDate` models the
`AttributeError` raised when `employee['hire_date']` is NULL and
db_service.py line 185 reads `.year` on it; `employeeMissing` models the
`TypeError` of subscripting the `None` that `get_vacation_balance`
returns for an unknown employee. -/
inductive VacErr where
  | invalidRange
  | pastDate
  | noBusinessDays
  | insufficientBalance
  | notFound
  | nullHireDate
  | employeeMissing
deriving DecidableEq, Repr

/-- SQL `SELECT COALESCE(SUM(business_days), 0) FROM vacation_requests
WHERE employee_id = eid AND vacation_type = vtype AND
EXTRACT(YEAR FROM start_date) = year AND status = 'approved'`. -/
def sumUsedDays (reqs : List VacationRequest) (eid : Int) (vtype : String) (year : Nat) : Int :=
  ((reqs.filter (fun r =>
      r.employee_id == eid && r.vacation_type == vtype
        && r.start_date.year == year && r.status == "approved")).map
    (fun r => r.business_days)).sum

/-- db_service.py `get_vacation_balance` (lines 162-243), with the database
state (`employees`, `reqs`) and the clock (`today`) passed explicitly.
`Except.ok none` is the Python `return None` for an unknown employee;
`Except.error .nullHireDate` is the crash on a NULL hire date at the first
read `employee['hire_date'].year`. The holiday-cache sync performed by
`check_and_handle_year_rollover` only writes the corporate_holidays table
and does not affect the returned value, so it is not modelled. -/
def get_vacation_balance (employees : List Employee) (reqs : List VacationRequest)
    (employee_id : Int) (year : Nat) (today : Date) : Except VacErr (Option Balance) :=
  match employees.find? (fun e => e.id == employee_id) with
  | none => .ok none
  | some employee =>
    match employee.hire_date with
    | none => .error .nullHireDate
    | some hire_date =>
      let year_start : Date := ⟨year, 1, 1⟩
      let year_end : Date := ⟨year, 12, 31⟩
      let accrual_start := if hire_date.year == year then hire_date else year_start
      let accrual_end := Date.minD today year_end
      let accrued : Int :=
        if Date.ble accrual_start accrual_end then
          let months_worked : Int :=
            ((accrual_end.year : Int) - accrual_start.year) * 12
              + (accrual_end.month : Int) - accrual_start.month
              + (if accrual_start.day ≤ accrual_end.day then 1 else 0)
          min 12 (max 0 months_worked)
        else 0
      let vacation_used := sumUsedDays reqs employee_id "vacation" year
      let holidays_used := sumUsedDays reqs employee_id "optional_holiday" year
      let carryover : Int :=
        if hire_date.year < year then
          let prev_year_accrued := min 12 (calculate_vacation_accrued hire_date ⟨year - 1, 12, 31⟩)
          let prev_year_used := sumUsedDays reqs employee_id "vacation" (year - 1)
          min 5 (max 0 (prev_year_accrued - prev_year_used))
        else 0
      .ok (some
        { vacation_accrued := min 12 accrued
          vacation_used := vacation_used
          vacation_available := min 12 accrued + carryover - vacation_used
          vacation_carryover := carryover
          optional_holidays_used := holidays_used
          optional_holidays_available := 3 - holidays_used })

/-- db_service.py `get_vacation_by_id`: the row with the given id owned by
the given employee, if any. -/
def get_vacation_by_id (reqs : List VacationRequest) (vacation_id employee_id : Int) :
    Option VacationRequest :=
  reqs.find? (fun r => r.id == vacation_id && r.employee_id == employee_id)

/-- db_service.py `delete_vacation_request`: `DELETE FROM vacation_requests
WHERE id = vacation_id`. -/
def delete_vacation_request (reqs : List VacationRequest) (vacation_id : Int) :
    List VacationRequest :=
  reqs.filter (fun r => !(r.id == vacation_id))

/-- db_service.py `create_vacation_request`. Modelled from the spec: the
`vacation_requests` DDL is not under src/, and the INSERT names no status
column; per the spec the status column "defaults to `approved`". The
database assigns the fresh id, passed here as `new_id`. -/
def create_vacation_request (reqs : List VacationRequest) (new_id : Int)
    (employee_id : Int) (vacation_type : String) (start_date end_date : Date)
    (business_days : Int) (notes : String) : VacationRequest × List VacationRequest :=
  let v : VacationRequest :=
    { id := new_id, employee_id := employee_id, vacation_type := vacation_type
      start_date := start_date, end_date := end_date
      business_days := business_days, status := "approved", notes := notes }
  (v, reqs ++ [v])

/-- vacation_service.py `create_user_vacation` (lines 80-147), with the
caller's employee row resolved (Python resolves it via
`get_or_create_employee`, so it always exists) and the database state and
clock explicit. Balance errors from `get_vacation_balance` propagate. -/
def create_user_vacation (employees : List Employee) (reqs : List VacationRequest)
    (employee_id : Int) (new_id : Int) (vacation_type : String)
    (start_date end_date : Date) (notes : String) (today : Date) :
    Except VacErr (VacationRequest × List VacationRequest) :=
  if Date.blt end_date start_date then .error .invalidRange
  else if Date.blt start_date today then .error .pastDate
  else
    let holidays :=
      (List.range (end_date.year + 1 - start_date.year)).flatMap
        (fun i => get_corporate_holidays (start_date.year + i))
    let business_days := calculate_business_days start_date end_date holidays
    if business_days == 0 then .error .noBusinessDays
    else
      match get_vacation_balance employees reqs employee_id start_date.year today with
      | .error e => .error e
      | .ok none => .error .employeeMissing
      | .ok (some balance) =>
        if vacation_type == "vacation" && (business_days : Int) > balance.vacation_available then
          .error .insufficientBalance
        else if vacation_type == "optional_holiday"
            && (business_days : Int) > balance.optional_holidays_available then
          .error .insufficientBalance
        else
          .ok (create_vacation_request reqs new_id employee_id vacation_type
            start_date end_date (business_days : Int) notes)

/-- vacation_service.py `delete_user_vacation` (lines 150-174): look the
request up by id and owner, reject missing or past requests, else delete. -/
def delete_user_vacation (reqs : List VacationRequest) (employee_id vacation_id : Int)
    (today : Date) : Except VacErr (List VacationRequest) :=
  match get_vacation_by_id reqs vacation_id employee_id with
  | none => .error .notFound
  | some vacation =>
    if Date.blt vacation.start_date today then .error .pastDate
    else .ok (delete_vacation_request reqs vacation_id)

/-- vacation_service.py `get_holidays_for_year` (lines 179-199): tag the
dates of `get_corporate_holidays` with names, by list position. -/
def get_holidays_for_year (year : Nat) : List (String × Date) :=
  let holidays := get_corporate_holidays year
  let holiday_names := ["New Year\x27s Day", "Memorial Day", "Independence Day",
    "Labor Day", "Thanksgiving", "Christmas"]
  (holiday_names.zip holidays)

/-! ### Calendar arithmetic lemmas -/

lemma daysInMonth_pos (y m : Nat) (h1 : 1 ≤ m) (h2 : m ≤ 12) : 1 ≤ daysInMonth y m := by
  interval_cases m <;> simp [daysInMonth] <;> split <;> omega

lemma dbm_add_dim (y m : Nat) (h1 : 1 ≤ m) (h2 : m ≤ 11) :
    daysBeforeMonth y m + daysInMonth y m = daysBeforeMonth y (m + 1) := by
  interval_cases m <;> cases h : isLeap y <;> simp [daysBeforeMonth, daysInMonth, h]

lemma dbm12_add_dim (y : Nat) :
    daysBeforeMonth y 12 + daysInMonth y 12 = 365 + (if isLeap y then 1 else 0) := by
  cases h : isLeap y <;> simp [daysBeforeMonth, daysInMonth, h]

lemma isLeap_iff (y : Nat) :
    isLeap y = true ↔ (y % 4 = 0 ∧ (y % 100 ≠ 0 ∨ y % 400 = 0)) := by
  simp [isLeap]

set_option maxHeartbeats 1600000 in
lemma dby_succ (y : Nat) (hy : 1 ≤ y) :
    daysBeforeYear (y + 1) = daysBeforeYear y + (365 + (if isLeap y then 1 else 0)) := by
  cases h : isLeap y
  · rw [if_neg (by simp [h])]
    have h2 := (isLeap_iff y).not.mp (by simp [h])
    unfold daysBeforeYear
    omega
  · rw [if_pos rfl]
    have h2 := (isLeap_iff y).mp h
    unfold daysBeforeYear
    omega

lemma dby_mono (y y' : Nat) (h : y ≤ y') : daysBeforeYear y ≤ daysBeforeYear y' := by
  unfold daysBeforeYear
  have h4 : (y - 1) / 4 ≤ (y' - 1) / 4 := Nat.div_le_div_right (by omega)
  have h400 : (y - 1) / 400 ≤ (y' - 1) / 400 := Nat.div_le_div_right (by omega)
  have c1 : ((y - 1) / 100) * 100 ≤ y - 1 := Nat.div_mul_le_self _ _
  have c2 : ((y' - 1) / 100) * 100 ≤ y' - 1 := Nat.div_mul_le_self _ _
  omega

lemma dbm_dim_le (y m : Nat) (h1 : 1 ≤ m) (h2 : m ≤ 12) :
    daysBeforeMonth y m + daysInMonth y m ≤ 365 + (if isLeap y then 1 else 0) := by
  interval_cases m <;> cases h : isLeap y <;> simp [daysBeforeMonth, daysInMonth, h]

lemma dbm_mono (y m m' : Nat) (h1 : 1 ≤ m) (h2 : m < m') (h3 : m' ≤ 12) :
    daysBeforeMonth y m + daysInMonth y m ≤ daysBeforeMonth y m' := by
  have h4 : 2 ≤ m' := by omega
  have h5 : m ≤ 11 := by omega
  interval_cases m' <;> interval_cases m <;>
    cases h : isLeap y <;> simp [daysBeforeMonth, daysInMonth, h]

lemma valid_fields (d : Date) (h : d.Valid) :
    1 ≤ d.year ∧ 1 ≤ d.month ∧ d.month ≤ 12 ∧ 1 ≤ d.day ∧ d.day ≤ daysInMonth d.year d.month := by
  simp only [Date.Valid, Date.ValidB, Bool.and_eq_true, decide_eq_true_eq] at h
  omega

lemma blt_iff (a b : Date) :
    Date.blt a b = true ↔
      (a.year < b.year ∨ (a.year = b.year ∧
        (a.month < b.month ∨ (a.month = b.month ∧ a.day < b.day)))) := by
  simp [Date.blt]

lemma ble_iff (a b : Date) :
    Date.ble a b = true ↔
      (a.year < b.year ∨ (a.year = b.year ∧
        (a.month < b.month ∨ (a.month = b.month ∧ a.day ≤ b.day)))) := by
  simp [Date.ble]

lemma ble_iff_blt_or_eq (a b : Date) :
    Date.ble a b = true ↔ (Date.blt a b = true ∨ a = b) := by
  cases a; cases b
  rw [ble_iff, blt_iff]
  simp only [Date.mk.injEq]
  omega

lemma blt_trichotomy (a b : Date) :
    Date.blt a b = true ∨ a = b ∨ Date.blt b a = true := by
  cases a; cases b
  rw [blt_iff, blt_iff]
  simp only [Date.mk.injEq]
  omega

/-- For valid dates, the lexicographic order agrees strictly with the ordinal. -/
lemma toOrdinal_lt_of_blt (a b : Date) (ha : a.Valid) (hb : b.Valid)
    (h : Date.blt a b = true) : a.toOrdinal < b.toOrdinal := by
  obtain ⟨hay, ham1, ham2, had1, had2⟩ := valid_fields a ha
  obtain ⟨hby, hbm1, hbm2, hbd1, hbd2⟩ := valid_fields b hb
  rw [blt_iff] at h
  unfold Date.toOrdinal
  rcases h with hy | ⟨hy, hm | ⟨hm, hd⟩⟩
  · have h1 : daysBeforeMonth a.year a.month + a.day ≤ 365 + (if isLeap a.year then 1 else 0) := by
      have := dbm_dim_le a.year a.month ham1 ham2
      omega
    have h2 : daysBeforeYear a.year + (365 + (if isLeap a.year then 1 else 0)) =
        daysBeforeYear (a.year + 1) := (dby_succ a.year hay).symm
    have h3 : daysBeforeYear (a.year + 1) ≤ daysBeforeYear b.year := dby_mono _ _ (by omega)
    have h4 : 0 < daysBeforeMonth b.year b.month + b.day := by omega
    omega
  · rw [hy]
    have h1 : daysBeforeMonth b.year a.month + daysInMonth b.year a.month ≤
        daysBeforeMonth b.year b.month := dbm_mono b.year a.month b.month ham1 hm hbm2
    rw [hy] at had2
    omega
  · rw [hy, hm]
    omega

lemma toOrdinal_inj (a b : Date) (ha : a.Valid) (hb : b.Valid)
    (h : a.toOrdinal = b.toOrdinal) : a = b := by
  rcases blt_trichotomy a b with hlt | heq | hgt
  · exact absurd h (Nat.ne_of_lt (toOrdinal_lt_of_blt a b ha hb hlt))
  · exact heq
  · exact absurd h.symm (Nat.ne_of_lt (toOrdinal_lt_of_blt b a hb ha hgt))

lemma blt_iff_ord (a b : Date) (ha : a.Valid) (hb : b.Valid) :
    Date.blt a b = true ↔ a.toOrdinal < b.toOrdinal := by
  constructor
  · exact toOrdinal_lt_of_blt a b ha hb
  · intro h
    rcases blt_trichotomy a b with hlt | heq | hgt
    · exact hlt
    · subst heq
      exact absurd h (by omega)
    · exact absurd (toOrdinal_lt_of_blt b a hb ha hgt) (by omega)

lemma ble_iff_ord (a b : Date) (ha : a.Valid) (hb : b.Valid) :
    Date.ble a b = true ↔ a.toOrdinal ≤ b.toOrdinal := by
  rw [ble_iff_blt_or_eq]
  constructor
  · rintro (h | rfl)
    · exact Nat.le_of_lt ((blt_iff_ord a b ha hb).mp h)
    · exact Nat.le_refl _
  · intro h
    rcases Nat.lt_or_ge a.toOrdinal b.toOrdinal with hlt | hge
    · exact Or.inl ((blt_iff_ord a b ha hb).mpr hlt)
    · exact Or.inr (toOrdinal_inj a b ha hb (by omega))

lemma valid_mk (y m dd : Nat) (h1 : 1 ≤ y) (h2 : 1 ≤ m) (h3 : m ≤ 12)
    (h4 : 1 ≤ dd) (h5 : dd ≤ daysInMonth y m) : Date.Valid ⟨y, m, dd⟩ := by
  simp only [Date.Valid, Date.ValidB, Bool.and_eq_true, decide_eq_true_eq]
  exact ⟨⟨⟨⟨h1, h2⟩, h3⟩, h4⟩, h5⟩

lemma toOrdinal_mk (y m dd : Nat) :
    Date.toOrdinal ⟨y, m, dd⟩ = daysBeforeYear y + daysBeforeMonth y m + dd := rfl

lemma nextDay_valid (d : Date) (h : d.Valid) : (nextDay d).Valid := by
  obtain ⟨h1, h2, h3, h4, h5⟩ := valid_fields d h
  unfold nextDay
  split
  · exact valid_mk _ _ _ h1 h2 h3 (by omega) (by omega)
  · split
    · exact valid_mk _ _ _ h1 (by omega) (by omega) (by omega)
        (daysInMonth_pos d.year (d.month + 1) (by omega) (by omega))
    · exact valid_mk _ _ _ (by omega) (by omega) (by omega) (by omega)
        (by simp [daysInMonth])

lemma nextDay_toOrdinal (d : Date) (h : d.Valid) :
    (nextDay d).toOrdinal = d.toOrdinal + 1 := by
  obtain ⟨h1, h2, h3, h4, h5⟩ := valid_fields d h
  have hord : d.toOrdinal = daysBeforeYear d.year + daysBeforeMonth d.year d.month + d.day := rfl
  unfold nextDay
  split
  · rw [toOrdinal_mk]
    omega
  · split
    · have hm : d.month ≤ 11 := by omega
      have hdm := dbm_add_dim d.year d.month h2 hm
      rw [toOrdinal_mk]
      omega
    · have hm : d.month = 12 := by omega
      have h12 := dbm12_add_dim d.year
      have hs := dby_succ d.year h1
      have hb1 : daysBeforeMonth (d.year + 1) 1 = 0 := by simp [daysBeforeMonth]
      have hdim : daysInMonth d.year d.month = 31 := by rw [hm]; rfl
      have hdim12 : daysInMonth d.year 12 = 31 := rfl
      have hdbm : daysBeforeMonth d.year d.month = daysBeforeMonth d.year 12 := by rw [hm]
      rw [toOrdinal_mk, hb1]
      omega

lemma prevDay_valid (d : Date) (h : d.Valid) (h2 : 2 ≤ d.toOrdinal) : (prevDay d).Valid := by
  obtain ⟨hy, hm1, hm2, hd1, hd2⟩ := valid_fields d h
  unfold prevDay
  split
  · exact valid_mk _ _ _ hy hm1 hm2 (by omega) (by omega)
  · split
    · exact valid_mk _ _ _ hy (by omega) (by omega)
        (daysInMonth_pos d.year (d.month - 1) (by omega) (by omega)) (Nat.le_refl _)
    · have hmm : d.month = 1 := by omega
      have hdd : d.day = 1 := by omega
      have hyy : 2 ≤ d.year := by
        by_contra hc
        have hy1 : d.year = 1 := by omega
        have hord : d.toOrdinal = daysBeforeYear d.year + daysBeforeMonth d.year d.month + d.day := rfl
        rw [hy1, hmm, hdd] at hord
        simp [daysBeforeYear, daysBeforeMonth] at hord
        omega
      exact valid_mk _ _ _ (by omega) (by omega) (by omega) (by omega)
        (by simp [daysInMonth])

lemma prevDay_toOrdinal (d : Date) (h : d.Valid) (h2 : 2 ≤ d.toOrdinal) :
    (prevDay d).toOrdinal + 1 = d.toOrdinal := by
  obtain ⟨hy, hm1, hm2, hd1, hd2⟩ := valid_fields d h
  have hord : d.toOrdinal = daysBeforeYear d.year + daysBeforeMonth d.year d.month + d.day := rfl
  unfold prevDay
  split
  · rw [toOrdinal_mk]
    omega
  · split
    · have hdm := dbm_add_dim d.year (d.month - 1) (by omega) (by omega)
      have hmm : d.month - 1 + 1 = d.month := by omega
      rw [hmm] at hdm
      rw [toOrdinal_mk]
      omega
    · have hmm : d.month = 1 := by omega
      have hdd : d.day = 1 := by omega
      have hyy : 2 ≤ d.year := by
        by_contra hc
        have hy1 : d.year = 1 := by omega
        rw [hy1, hmm, hdd] at hord
        simp [daysBeforeYear, daysBeforeMonth] at hord
        omega
      have hs := dby_succ (d.year - 1) (by omega)
      have hy1 : d.year - 1 + 1 = d.year := by omega
      rw [hy1] at hs
      have h12 := dbm12_add_dim (d.year - 1)
      have hd31 : daysInMonth (d.year - 1) 12 = 31 := rfl
      have hb1 : daysBeforeMonth d.year 1 = 0 := by simp [daysBeforeMonth]
      rw [toOrdinal_mk]
      rw [hmm, hdd, hb1] at hord
      omega

lemma addDays_spec (n : Nat) : ∀ d : Date, d.Valid →
    (addDays d n).Valid ∧ (addDays d n).toOrdinal = d.toOrdinal + n := by
  induction n with
  | zero => intro d hd; exact ⟨hd, rfl⟩
  | succ k ih =>
    intro d hd
    show (addDays (nextDay d) k).Valid ∧ (addDays (nextDay d) k).toOrdinal = d.toOrdinal + (k + 1)
    obtain ⟨hv, ho⟩ := ih (nextDay d) (nextDay_valid d hd)
    rw [nextDay_toOrdinal d hd] at ho
    exact ⟨hv, by omega⟩

lemma subDays_spec (n : Nat) : ∀ d : Date, d.Valid → n + 1 ≤ d.toOrdinal →
    (subDays d n).Valid ∧ (subDays d n).toOrdinal + n = d.toOrdinal := by
  induction n with
  | zero => intro d hd _; exact ⟨hd, rfl⟩
  | succ k ih =>
    intro d hd hn
    show (subDays (prevDay d) k).Valid ∧ (subDays (prevDay d) k).toOrdinal + (k + 1) = d.toOrdinal
    have hp := prevDay_toOrdinal d hd (by omega)
    obtain ⟨hv, ho⟩ := ih (prevDay d) (prevDay_valid d hd (by omega)) (by omega)
    exact ⟨hv, by omega⟩

/-! ### Characterization of the business-day counter -/

/-- Day number `o` is a business day: not a Saturday (weekday 5), not a
Sunday (weekday 6), and not the ordinal of a date in the holiday list. -/
def isBusinessOrd (o : Nat) (holidays : List Date) : Prop :=
  ((o + 6) % 7 ≠ 5 ∧ (o + 6) % 7 ≠ 6) ∧ o ∉ holidays.map Date.toOrdinal

instance (o : Nat) (holidays : List Date) : Decidable (isBusinessOrd o holidays) := by
  unfold isBusinessOrd; infer_instance

lemma contains_iff_ord_mem (cur : Date) (hs : List Date) (hc : cur.Valid)
    (hH : ∀ h ∈ hs, h.Valid) :
    hs.contains cur = true ↔ cur.toOrdinal ∈ hs.map Date.toOrdinal := by
  rw [List.contains_iff_exists_mem_beq]
  constructor
  · rintro ⟨h, hmem, hbe⟩
    have : cur = h := by simpa using hbe
    subst this
    exact List.mem_map_of_mem _ hmem
  · intro hmem
    obtain ⟨h, hmem2, heq⟩ := List.mem_map.mp hmem
    have : h = cur := toOrdinal_inj h cur (hH h hmem2) hc heq
    subst this
    exact ⟨h, hmem2, by simp⟩

lemma indicator_iff (cur : Date) (hs : List Date) (hc : cur.Valid)
    (hH : ∀ h ∈ hs, h.Valid) :
    ((cur.weekday < 5 && !hs.contains cur) = true) ↔ isBusinessOrd cur.toOrdinal hs := by
  unfold Date.weekday isBusinessOrd
  rw [Bool.and_eq_true, Bool.not_eq_true']
  have hlt : (cur.toOrdinal + 6) % 7 < 7 := Nat.mod_lt _ (by omega)
  constructor
  · rintro ⟨hw, hcon⟩
    refine ⟨by simp at hw; omega, ?_⟩
    intro hmem
    rw [← contains_iff_ord_mem cur hs hc hH] at hmem
    rw [hcon] at hmem
    exact Bool.false_ne_true hmem
  · rintro ⟨hw, hmem⟩
    rw [← contains_iff_ord_mem cur hs hc hH] at hmem
    refine ⟨by simp; omega, ?_⟩
    cases hcon : hs.contains cur
    · rfl
    · exact absurd hcon hmem

lemma bdLoop_card (e : Date) (hs : List Date) (hE : e.Valid) (hH : ∀ h ∈ hs, h.Valid) :
    ∀ n : Nat, ∀ cur : Date, cur.Valid → cur.toOrdinal + n = e.toOrdinal + 1 →
      bdLoop n cur e hs =
        ((Finset.Icc cur.toOrdinal e.toOrdinal).filter (fun o => isBusinessOrd o hs)).card := by
  intro n
  induction n with
  | zero =>
    intro cur _ hord
    have : Finset.Icc cur.toOrdinal e.toOrdinal = ∅ := Finset.Icc_eq_empty (by omega)
    rw [this]
    simp [bdLoop]
  | succ k ih =>
    intro cur hc hord
    have hle : cur.toOrdinal ≤ e.toOrdinal := by omega
    have hble : Date.ble cur e = true := (ble_iff_ord cur e hc hE).mpr hle
    have hsplit : Finset.Icc cur.toOrdinal e.toOrdinal =
        insert cur.toOrdinal (Finset.Ioc cur.toOrdinal e.toOrdinal) :=
      (Finset.Ioc_insert_left hle).symm
    have hnotmem : cur.toOrdinal ∉ Finset.Ioc cur.toOrdinal e.toOrdinal := by
      simp
    have hioc : Finset.Ioc cur.toOrdinal e.toOrdinal =
        Finset.Icc (cur.toOrdinal + 1) e.toOrdinal := by
      ext x
      simp
      omega
    have hnext := ih (nextDay cur) (nextDay_valid cur hc)
      (by rw [nextDay_toOrdinal cur hc]; omega)
    rw [nextDay_toOrdinal cur hc] at hnext
    show (if Date.ble cur e = true then
        (if cur.weekday < 5 && !hs.contains cur then 1 else 0) + bdLoop k (nextDay cur) e hs
      else 0) = _
    rw [if_pos hble, hsplit, Finset.filter_insert]
    by_cases hbiz : isBusinessOrd cur.toOrdinal hs
    · rw [if_pos ((indicator_iff cur hs hc hH).mpr hbiz), if_pos hbiz]
      rw [Finset.card_insert_of_not_mem (fun hmem => hnotmem (Finset.mem_of_mem_filter _ hmem))]
      rw [hnext, hioc]
      omega
    · have hind : (cur.weekday < 5 && !hs.contains cur) = false := by
        cases hcase : (cur.weekday < 5 && !hs.contains cur)
        · rfl
        · exact absurd ((indicator_iff cur hs hc hH).mp hcase) hbiz
      rw [hind, if_neg hbiz, if_neg Bool.false_ne_true]
      rw [hnext, hioc]
      omega

lemma blt_eq_false_iff (a b : Date) : Date.blt a b = false ↔ Date.ble b a = true := by
  rw [ble_iff]
  cases a; cases b
  rw [← Bool.not_eq_true, blt_iff]
  simp only [Date.mk.injEq]
  omega

/-- `calculate_business_days` counts exactly the business days among the
day numbers in the inclusive ordinal interval of the two endpoints. -/
lemma calc_bd_card (s e : Date) (hs : List Date) (hS : s.Valid) (hE : e.Valid)
    (hH : ∀ h ∈ hs, h.Valid) :
    calculate_business_days s e hs =
      ((Finset.Icc s.toOrdinal e.toOrdinal).filter (fun o => isBusinessOrd o hs)).card := by
  unfold calculate_business_days
  cases hblt : Date.blt e s
  · rw [if_neg (by simp)]
    have hle : s.toOrdinal ≤ e.toOrdinal :=
      (ble_iff_ord s e hS hE).mp ((blt_eq_false_iff e s).mp hblt)
    exact bdLoop_card e hs hE hH _ s hS (by omega)
  · rw [if_pos rfl]
    have hlt : e.toOrdinal < s.toOrdinal := (blt_iff_ord e s hE hS).mp hblt
    have : Finset.Icc s.toOrdinal e.toOrdinal = ∅ := Finset.Icc_eq_empty (by omega)
    rw [this]
    simp

/-! ### Characterization of the accrual calculator -/

/-- Index of a date's month on the infinite month axis. -/
def monthIndex (d : Date) : Nat := d.year * 12 + (d.month - 1)

/-- The k-th monthly anniversary of a date: same day-of-month, k months
later. -/
def addMonths (d : Date) (k : Nat) : Date :=
  ⟨(monthIndex d + k) / 12, (monthIndex d + k) % 12 + 1, d.day⟩

/-- The number of whole months elapsed from `hire` to `cur`: how many
monthly anniversaries of the hire date have been reached by `cur`. A
month is complete exactly when its anniversary (same day-of-month) has
arrived, compared in calendar order. -/
def monthsElapsedSpec (hire cur : Date) : Nat :=
  ((Finset.Icc 1 ((cur.year + 1) * 12)).filter
    (fun k => Date.ble (addMonths hire k) cur = true)).card

lemma ble_addMonths (hire cur : Date) (k : Nat)
    (hm1 : 1 ≤ hire.month) (hm2 : hire.month ≤ 12)
    (hc1 : 1 ≤ cur.month) (hc2 : cur.month ≤ 12) :
    Date.ble (addMonths hire k) cur = true ↔
      (monthIndex hire + k < monthIndex cur ∨
        (monthIndex hire + k = monthIndex cur ∧ hire.day ≤ cur.day)) := by
  rw [ble_iff]
  unfold addMonths monthIndex
  simp only
  omega

/-- For `hire ≤ cur`, the accrual calculator computes exactly the number
of monthly anniversaries of the hire date reached by `cur`. -/
lemma accrued_eq_monthsElapsed (hire cur : Date) (hh : hire.Valid) (hc : cur.Valid)
    (hble : Date.ble hire cur = true) :
    calculate_vacation_accrued hire cur = (monthsElapsedSpec hire cur : Int) := by
  obtain ⟨hy1, hm1, hm2, hd1, hd2⟩ := valid_fields hire hh
  obtain ⟨cy1, cm1, cm2, cd1, cd2⟩ := valid_fields cur hc
  have hblt : Date.blt cur hire = false := (blt_eq_false_iff cur hire).mpr hble
  have hle : monthIndex hire ≤ monthIndex cur ∧
      (monthIndex hire = monthIndex cur → hire.day ≤ cur.day) := by
    rw [ble_iff] at hble
    unfold monthIndex
    omega
  have hmi : (monthIndex cur : Int) - monthIndex hire =
      ((cur.year : Int) - hire.year) * 12 + cur.month - hire.month := by
    unfold monthIndex
    push_cast
    omega
  unfold calculate_vacation_accrued monthsElapsedSpec
  rw [hblt, if_neg Bool.false_ne_true]
  by_cases hdd : hire.day ≤ cur.day
  · have hset : (Finset.Icc 1 ((cur.year + 1) * 12)).filter
        (fun k => Date.ble (addMonths hire k) cur = true)
          = Finset.Icc 1 (monthIndex cur - monthIndex hire) := by
      ext k
      simp only [Finset.mem_filter, Finset.mem_Icc]
      rw [ble_addMonths hire cur k hm1 hm2 cm1 cm2]
      unfold monthIndex
      omega
    rw [hset, Nat.card_Icc, if_neg (by omega)]
    rw [max_eq_right (by omega)]
    omega
  · have hset : (Finset.Icc 1 ((cur.year + 1) * 12)).filter
        (fun k => Date.ble (addMonths hire k) cur = true)
          = Finset.Icc 1 (monthIndex cur - monthIndex hire - 1) := by
      ext k
      simp only [Finset.mem_filter, Finset.mem_Icc]
      rw [ble_addMonths hire cur k hm1 hm2 cm1 cm2]
      unfold monthIndex
      omega
    rw [hset, Nat.card_Icc, if_pos (by omega)]
    rw [max_eq_right (by omega)]
    omega

/-! ### Claim theorems -/

/-- C7: for every pair of valid dates and every set of valid holiday
dates, `calculate_business_days` returns 0 when the start date is after
the end date (not an error), and otherwise returns the number of calendar
days in the inclusive range that are neither Saturday (weekday 5) nor
Sunday (weekday 6) nor members of the holiday set. -/
theorem business_day_counter_spec (s e : Date) (hs : List Date)
    (hS : s.Valid) (hE : e.Valid) (hH : ∀ h ∈ hs, h.Valid) :
    (Date.blt e s = true → calculate_business_days s e hs = 0) ∧
    calculate_business_days s e hs =
      ((Finset.Icc s.toOrdinal e.toOrdinal).filter (fun o => isBusinessOrd o hs)).card := by
  refine ⟨?_, calc_bd_card s e hs hS hE hH⟩
  intro h
  unfold calculate_business_days
  rw [h, if_pos rfl]

/-- Witness for C7: a concrete week in January 2025 (Jan 1 is a holiday,
Jan 4 and 5 are a weekend) has 4 business days, and a reversed range
counts 0. -/
theorem business_day_counter_spec_witness :
    (calculate_business_days ⟨2025, 1, 1⟩ ⟨2025, 1, 7⟩ (get_corporate_holidays 2025) =
      ((Finset.Icc (Date.toOrdinal ⟨2025, 1, 1⟩) (Date.toOrdinal ⟨2025, 1, 7⟩)).filter
        (fun o => isBusinessOrd o (get_corporate_holidays 2025))).card) ∧
    calculate_business_days ⟨2025, 1, 7⟩ ⟨2025, 1, 1⟩ [] = 0 :=
  ⟨(business_day_counter_spec ⟨2025, 1, 1⟩ ⟨2025, 1, 7⟩ (get_corporate_holidays 2025)
      (by decide) (by decide) (by decide)).2,
   (business_day_counter_spec ⟨2025, 1, 7⟩ ⟨2025, 1, 1⟩ []
      (by decide) (by decide) (by decide)).1 (by decide)⟩

/-- C8: the business-day counter is monotonic: extending a nonempty range
by one more day that is a weekday and not a holiday increases the count
by exactly 1. -/
theorem business_day_counter_monotonic (s e : Date) (hs : List Date)
    (hS : s.Valid) (hE : e.Valid) (hH : ∀ h ∈ hs, h.Valid)
    (hle : Date.ble s e = true)
    (hwk : (nextDay e).weekday < 5)
    (hhol : nextDay e ∉ hs) :
    calculate_business_days s (nextDay e) hs = calculate_business_days s e hs + 1 := by
  have hEv := nextDay_valid e hE
  have hEo := nextDay_toOrdinal e hE
  have hord_le : s.toOrdinal ≤ e.toOrdinal := (ble_iff_ord s e hS hE).mp hle
  rw [calc_bd_card s e hs hS hE hH, calc_bd_card s (nextDay e) hs hS hEv hH, hEo]
  have hpred : isBusinessOrd (e.toOrdinal + 1) hs := by
    constructor
    · unfold Date.weekday at hwk
      rw [hEo] at hwk
      have : (e.toOrdinal + 1 + 6) % 7 < 7 := Nat.mod_lt _ (by omega)
      omega
    · intro hmem
      obtain ⟨h, hm, heq⟩ := List.mem_map.mp hmem
      have : h = nextDay e := toOrdinal_inj h (nextDay e) (hH h hm) hEv (by omega)
      subst this
      exact hhol hm
  rw [← Nat.Icc_insert_succ_right (show s.toOrdinal ≤ e.toOrdinal + 1 by omega),
    Finset.filter_insert, if_pos hpred,
    Finset.card_insert_of_not_mem (fun hmem => by
      have := Finset.mem_of_mem_filter _ hmem
      simp [Finset.mem_Icc] at this)]

/-- Witness for C8: extending Mon Jan 6 - Tue Jan 7 2025 by Wed Jan 8
(a non-holiday weekday) raises the count from 2 to 3. -/
theorem business_day_counter_monotonic_witness :
    calculate_business_days ⟨2025, 1, 6⟩ (nextDay ⟨2025, 1, 7⟩) (get_corporate_holidays 2025) =
      calculate_business_days ⟨2025, 1, 6⟩ ⟨2025, 1, 7⟩ (get_corporate_holidays 2025) + 1 :=
  business_day_counter_monotonic ⟨2025, 1, 6⟩ ⟨2025, 1, 7⟩ (get_corporate_holidays 2025)
    (by decide) (by decide) (by decide) (by decide) (by decide) (by decide)

/-- C6: `calculate_vacation_accrued` returns 0 when the hire date is after
the reference date, and otherwise the number of whole months elapsed
(a month counts once the reference day-of-month reaches the hire
day-of-month, formalized as counting the monthly anniversaries of the hire
date reached by the reference date); in particular the two concrete
examples from the spec hold. -/
theorem accrual_calculator_spec (hire cur : Date) (hh : hire.Valid) (hc : cur.Valid) :
    calculate_vacation_accrued hire cur =
      (if Date.blt cur hire then 0 else (monthsElapsedSpec hire cur : Int)) ∧
    calculate_vacation_accrued ⟨2024, 1, 15⟩ ⟨2024, 1, 10⟩ = 0 ∧
    calculate_vacation_accrued ⟨2024, 1, 15⟩ ⟨2024, 2, 15⟩ = 1 := by
  refine ⟨?_, by decide, by decide⟩
  cases hblt : Date.blt cur hire
  · rw [if_neg Bool.false_ne_true]
    exact accrued_eq_monthsElapsed hire cur hh hc ((blt_eq_false_iff cur hire).mp hblt)
  · rw [if_pos rfl]
    unfold calculate_vacation_accrued
    rw [hblt, if_pos rfl]

/-- Witness for C6 at hire 2023-03-10, reference 2023-12-31. -/
theorem accrual_calculator_spec_witness :
    calculate_vacation_accrued ⟨2023, 3, 10⟩ ⟨2023, 12, 31⟩ =
      (if Date.blt ⟨2023, 12, 31⟩ ⟨2023, 3, 10⟩ then 0
        else (monthsElapsedSpec ⟨2023, 3, 10⟩ ⟨2023, 12, 31⟩ : Int)) :=
  (accrual_calculator_spec ⟨2023, 3, 10⟩ ⟨2023, 12, 31⟩ (by decide) (by decide)).1

/-- C2 fails on the code: for every year the fourth element of
`get_corporate_holidays` (the one the code and the name list intend as
Memorial Day) is a date in May whose weekday is Sunday (6), never Monday
(0); and `get_holidays_for_year` pairs the fixed names with dates in the
wrong order, e.g. for 2025 it labels July 4 as "Memorial Day" while the
actual last Monday in May 2025 is May 26. -/
theorem holiday_calculator_bug :
    (∀ y : Nat, 1 ≤ y → ∃ d : Date,
      (get_corporate_holidays y).get? 3 = some d ∧ d.month = 5 ∧ d.weekday = 6) ∧
    (get_holidays_for_year 2025).get? 1 = some ("Memorial Day", ⟨2025, 7, 4⟩) ∧
    (get_holidays_for_year 2025).get? 5 = some ("Christmas", ⟨2025, 11, 27⟩) ∧
    (get_corporate_holidays 2025).get? 3 = some ⟨2025, 5, 25⟩ ∧
    Date.weekday ⟨2025, 5, 25⟩ = 6 ∧ Date.weekday ⟨2025, 5, 26⟩ = 0 := by
  refine ⟨?_, by decide, by decide, by decide, by decide, by decide⟩
  intro y hy
  have hv : Date.Valid ⟨y, 5, 31⟩ :=
    valid_mk y 5 31 hy (by omega) (by omega) (by omega) (Nat.le_refl _)
  have hdbm : daysBeforeMonth y 5 = 120 + (if isLeap y then 1 else 0) := by
    simp [daysBeforeMonth]
  have hord : Date.toOrdinal ⟨y, 5, 31⟩ = daysBeforeYear y + daysBeforeMonth y 5 + 31 := rfl
  have hord_big : 151 ≤ Date.toOrdinal ⟨y, 5, 31⟩ := by omega
  have hk7 : (Date.weekday ⟨y, 5, 31⟩ + 1) % 7 < 7 := Nat.mod_lt _ (by omega)
  refine ⟨subDays ⟨y, 5, 31⟩ ((Date.weekday ⟨y, 5, 31⟩ + 1) % 7), rfl, ?_, ?_⟩
  · generalize hgen : (Date.weekday ⟨y, 5, 31⟩ + 1) % 7 = k at hk7 ⊢
    interval_cases k <;> simp [subDays, prevDay]
  · obtain ⟨_, hsub⟩ := subDays_spec ((Date.weekday ⟨y, 5, 31⟩ + 1) % 7) ⟨y, 5, 31⟩ hv
      (by omega)
    unfold Date.weekday at hsub ⊢
    have h7 : (Date.toOrdinal ⟨y, 5, 31⟩ + 6) % 7 < 7 := Nat.mod_lt _ (by omega)
    omega

/-- Witness for C2's universal part, instantiated at 2025: the code's
Memorial-Day slot is 2025-05-25, a Sunday. -/
theorem holiday_calculator_bug_witness :
    ∃ d : Date, (get_corporate_holidays 2025).get? 3 = some d ∧ d.month = 5 ∧ d.weekday = 6 :=
  holiday_calculator_bug.1 2025 (by decide)

/-- C10: `get_vacation_balance` is defined only for employees with a hire
date: when the employee row exists but its (nullable) hire date is unset,
the computation fails with the modelled `AttributeError` instead of
returning a balance snapshot or the not-found result. -/
theorem balance_requires_hire_date (employees : List Employee) (reqs : List VacationRequest)
    (eid : Int) (year : Nat) (today : Date) (emp : Employee)
    (hfind : employees.find? (fun e => e.id == eid) = some emp)
    (hhd : emp.hire_date = none) :
    get_vacation_balance employees reqs eid year today = .error .nullHireDate := by
  simp [get_vacation_balance, hfind, hhd]

/-- Witness for C10: a concrete employee with no hire date set. -/
theorem balance_requires_hire_date_witness :
    get_vacation_balance [⟨1, none⟩] [] 1 2024 ⟨2024, 6, 15⟩ = .error .nullHireDate :=
  balance_requires_hire_date [⟨1, none⟩] [] 1 2024 ⟨2024, 6, 15⟩ ⟨1, none⟩ rfl rfl

/-- Counterexample to C1: for an employee hired 2023-03-10 with no stored
requests, today 2024-06-15 and target year 2024, the Balance Engine does
not return the claimed snapshot (accrued 4, available 9). -/
theorem balance_example_counterexample :
    get_vacation_balance [⟨1, some ⟨2023, 3, 10⟩⟩] [] 1 2024 ⟨2024, 6, 15⟩ ≠
      Except.ok (some
        { vacation_accrued := 4, vacation_used := 0, vacation_available := 9
          vacation_carryover := 5, optional_holidays_used := 0
          optional_holidays_available := 3 }) := by
  intro h
  have h2 : get_vacation_balance [⟨1, some ⟨2023, 3, 10⟩⟩] [] 1 2024 ⟨2024, 6, 15⟩ =
      Except.ok (some
        { vacation_accrued := 6, vacation_used := 0, vacation_available := 11
          vacation_carryover := 5, optional_holidays_used := 0
          optional_holidays_available := 3 }) := rfl
  rw [h2] at h
  simp at h

/-- C1 amended: in that scenario the code returns accrued = 6 (the inline
month count runs from Jan 1 and adds one extra month because the day of
Jun 15 has reached the day of Jan 1), carryover = 5 from 2023 (accrued 9,
used 0, clamped to 5), used = 0, vacation_available = 6 + 5 - 0 = 11, and
optional_holidays_available = 3. -/
theorem balance_example_amended :
    get_vacation_balance [⟨1, some ⟨2023, 3, 10⟩⟩] [] 1 2024 ⟨2024, 6, 15⟩ =
      Except.ok (some
        { vacation_accrued := 6, vacation_used := 0, vacation_available := 11
          vacation_carryover := 5, optional_holidays_used := 0
          optional_holidays_available := 3 }) := rfl

/-- The inline month count of the Balance Engine is one more than the
Accrual Calculator over the same window (both capped at 12), whenever the
window is nonempty. -/
lemma inline_accrued_eq (astart aend : Date) (hS : astart.Valid) (hE : aend.Valid)
    (hble : Date.ble astart aend = true) :
    min 12 (max 0 (((aend.year : Int) - astart.year) * 12 + (aend.month : Int) - astart.month
      + (if astart.day ≤ aend.day then 1 else 0))) =
    min 12 (calculate_vacation_accrued astart aend + 1) := by
  obtain ⟨hy1, hm1, hm2, hd1, hd2⟩ := valid_fields astart hS
  obtain ⟨gy1, gm1, gm2, gd1, gd2⟩ := valid_fields aend hE
  have hbltf : Date.blt aend astart = false := (blt_eq_false_iff aend astart).mpr hble
  rw [ble_iff] at hble
  unfold calculate_vacation_accrued
  rw [hbltf, if_neg Bool.false_ne_true]
  rcases le_or_lt astart.day aend.day with h | h
  · rw [if_pos h, if_neg (by omega)]
    rw [max_eq_right (by omega), max_eq_right (by omega)]
    congr 1
    omega
  · rw [if_neg (by omega), if_pos h]
    rw [max_eq_right (by omega), max_eq_right (by omega)]
    omega

/-- Counterexample to C3: with hire date 2023-03-10, today 2024-06-15 and
target year 2024, the Balance Engine reports accrued = 6, while the
Accrual Calculator over the accrual window [Jan 1 2024, Jun 15 2024],
capped at 12 and floored at 0, gives 5. -/
theorem accrual_refinement_counterexample :
    get_vacation_balance [⟨1, some ⟨2023, 3, 10⟩⟩] [] 1 2024 ⟨2024, 6, 15⟩ =
      Except.ok (some
        { vacation_accrued := 6, vacation_used := 0, vacation_available := 11
          vacation_carryover := 5, optional_holidays_used := 0
          optional_holidays_available := 3 }) ∧
    Date.minD ⟨2024, 6, 15⟩ ⟨2024, 12, 31⟩ = ⟨2024, 6, 15⟩ ∧
    min 12 (max 0 (calculate_vacation_accrued ⟨2024, 1, 1⟩ ⟨2024, 6, 15⟩)) = 5 ∧
    (5 : Int) ≠ 6 := by
  refine ⟨rfl, by decide, by decide, by decide⟩

/-- C3 amended: the accrued value the Balance Engine computes inline over
the accrual window (start = hire date if hired in the target year, else
Jan 1; end = min(today, Dec 31)) equals the Accrual Calculator over that
window plus one extra month, capped at 12 — not the Accrual Calculator
itself; the window being empty still yields 0. -/
theorem accrual_refinement_amended (employees : List Employee) (reqs : List VacationRequest)
    (eid : Int) (year : Nat) (today : Date) (emp : Employee) (hd : Date) (b : Balance)
    (hfind : employees.find? (fun e => e.id == eid) = some emp)
    (hhd : emp.hire_date = some hd)
    (hdv : hd.Valid) (htv : today.Valid) (hy : 1 ≤ year)
    (hbal : get_vacation_balance employees reqs eid year today = .ok (some b)) :
    b.vacation_accrued =
      (let accrual_start : Date := if hd.year = year then hd else ⟨year, 1, 1⟩
       let accrual_end : Date := Date.minD today ⟨year, 12, 31⟩
       if Date.ble accrual_start accrual_end = true then
         min 12 (calculate_vacation_accrued accrual_start accrual_end + 1)
       else 0) := by
  simp only [get_vacation_balance, hfind, hhd] at hbal
  simp only [Except.ok.injEq, Option.some.injEq] at hbal
  subst hbal
  dsimp only
  have hifeq : (if (hd.year == year) = true then hd else ⟨year, 1, 1⟩) =
      (if hd.year = year then hd else ⟨year, 1, 1⟩) := by
    simp [beq_iff_eq]
  rw [hifeq]
  set accrual_start : Date := if hd.year = year then hd else ⟨year, 1, 1⟩ with hsdef
  set accrual_end : Date := Date.minD today ⟨year, 12, 31⟩ with hedef
  have hSv : accrual_start.Valid := by
    rw [hsdef]
    split
    · exact hdv
    · exact valid_mk year 1 1 hy (by omega) (by omega) (by omega) (by simp [daysInMonth])
  have hEv : accrual_end.Valid := by
    rw [hedef]
    unfold Date.minD
    split
    · exact htv
    · exact valid_mk year 12 31 hy (by omega) (by omega) (by omega) (by simp [daysInMonth])
  cases hble : Date.ble accrual_start accrual_end
  · rw [if_neg Bool.false_ne_true, if_neg Bool.false_ne_true]
    decide
  · rw [if_pos rfl, if_pos rfl]
    rw [← min_assoc, min_self]
    exact inline_accrued_eq accrual_start accrual_end hSv hEv hble

/-- Witness for C3's amended theorem at the C1 scenario. -/
theorem accrual_refinement_amended_witness :
    Balance.vacation_accrued
      { vacation_accrued := 6, vacation_used := 0, vacation_available := 11
        vacation_carryover := 5, optional_holidays_used := 0
        optional_holidays_available := 3 } =
      (let accrual_start : Date :=
        if Date.year ⟨2023, 3, 10⟩ = 2024 then ⟨2023, 3, 10⟩ else ⟨2024, 1, 1⟩
       let accrual_end : Date := Date.minD ⟨2024, 6, 15⟩ ⟨2024, 12, 31⟩
       if Date.ble accrual_start accrual_end = true then
         min 12 (calculate_vacation_accrued accrual_start accrual_end + 1)
       else 0) :=
  accrual_refinement_amended [⟨1, some ⟨2023, 3, 10⟩⟩] [] 1 2024 ⟨2024, 6, 15⟩
    ⟨1, some ⟨2023, 3, 10⟩⟩ ⟨2023, 3, 10⟩ _ rfl rfl (by decide) (by decide) (by decide)
    rfl

/-- When request ids are unique, deleting by id removes exactly the one
matching request from the list. -/
lemma filter_ne_id_eq_erase (reqs : List VacationRequest) (r : VacationRequest)
    (hids : (reqs.map VacationRequest.id).Nodup) (hr : r ∈ reqs) :
    reqs.filter (fun q => !(q.id == r.id)) = reqs.erase r := by
  induction reqs with
  | nil => simp at hr
  | cons a l ih =>
    rw [List.map_cons, List.nodup_cons] at hids
    obtain ⟨ha, hl⟩ := hids
    rcases List.mem_cons.mp hr with rfl | hmem
    · rw [List.filter_cons_of_neg (by simp), List.erase_cons_head]
      apply List.filter_eq_self.mpr
      intro q hq
      simp only [Bool.not_eq_eq_eq_not, Bool.not_true, beq_eq_false_iff_ne, ne_eq]
      intro hqe
      exact ha (hqe ▸ List.mem_map_of_mem _ hq)
    · have haid : a.id ≠ r.id := fun h => ha (h ▸ List.mem_map_of_mem _ hmem)
      have hane : ¬(a == r) = true := by
        intro h
        rw [beq_iff_eq] at h
        exact haid (congrArg VacationRequest.id h)
      rw [List.filter_cons_of_pos (by simp [haid]), List.erase_cons_tail hane, ih hl hmem]

/-- C4: a vacation request can be deleted only by its owning employee and
only if its start date has not passed: `delete_user_vacation` fails with
`notFound` exactly when no stored request has the given id and owner;
when the owned request exists, it fails with `pastDate` if its start date
is before today and otherwise removes exactly that request. -/
theorem delete_request_spec (reqs : List VacationRequest) (eid vid : Int) (today : Date)
    (hids : (reqs.map VacationRequest.id).Nodup) :
    (delete_user_vacation reqs eid vid today = .error .notFound ↔
      ∀ r ∈ reqs, ¬(r.id = vid ∧ r.employee_id = eid)) ∧
    (∀ r ∈ reqs, r.id = vid → r.employee_id = eid →
      delete_user_vacation reqs eid vid today =
        (if Date.blt r.start_date today = true then .error .pastDate
         else .ok (reqs.erase r))) := by
  constructor
  · constructor
    · intro hres r hrmem ⟨hid, hemp⟩
      unfold delete_user_vacation get_vacation_by_id at hres
      cases hfind : reqs.find? (fun q => q.id == vid && q.employee_id == eid)
      · have := List.find?_eq_none.mp hfind r hrmem
        simp [hid, hemp] at this
      · rw [hfind] at hres
        simp only at hres
        split at hres
        · exact absurd (Except.error.inj hres) (by simp)
        · exact absurd hres (by simp)
    · intro hnone
      unfold delete_user_vacation get_vacation_by_id
      cases hfind : reqs.find? (fun q => q.id == vid && q.employee_id == eid)
      · rfl
      · rename_i v
        have hvmem := List.mem_of_find?_eq_some hfind
        have hvpred := List.find?_some hfind
        simp only [Bool.and_eq_true, beq_iff_eq] at hvpred
        exact absurd hvpred (hnone v hvmem)
  · intro r hrmem hid hemp
    have hfind : reqs.find? (fun q => q.id == vid && q.employee_id == eid) = some r := by
      cases hfind2 : reqs.find? (fun q => q.id == vid && q.employee_id == eid)
      · have := List.find?_eq_none.mp hfind2 r hrmem
        simp [hid, hemp] at this
      · rename_i v
        have hvmem := List.mem_of_find?_eq_some hfind2
        have hvpred := List.find?_some hfind2
        simp only [Bool.and_eq_true, beq_iff_eq] at hvpred
        have : v = r :=
          List.inj_on_of_nodup_map hids hvmem hrmem (hvpred.1.trans hid.symm)
        rw [this]
    unfold delete_user_vacation get_vacation_by_id delete_vacation_request
    rw [hfind]
    subst hid
    rw [filter_ne_id_eq_erase reqs r hids hrmem]

/-- Witness for C4: the owner deletes a future request; exactly that
request disappears. -/
theorem delete_request_spec_witness :
    delete_user_vacation
      [⟨5, 1, "vacation", ⟨2025, 3, 3⟩, ⟨2025, 3, 4⟩, 2, "approved", ""⟩,
       ⟨6, 2, "vacation", ⟨2025, 4, 1⟩, ⟨2025, 4, 2⟩, 2, "approved", ""⟩] 1 5 ⟨2025, 1, 1⟩ =
      .ok [⟨6, 2, "vacation", ⟨2025, 4, 1⟩, ⟨2025, 4, 2⟩, 2, "approved", ""⟩] := by
  have h := (delete_request_spec
    [⟨5, 1, "vacation", ⟨2025, 3, 3⟩, ⟨2025, 3, 4⟩, 2, "approved", ""⟩,
     ⟨6, 2, "vacation", ⟨2025, 4, 1⟩, ⟨2025, 4, 2⟩, 2, "approved", ""⟩] 1 5 ⟨2025, 1, 1⟩
    (by decide)).2
    ⟨5, 1, "vacation", ⟨2025, 3, 3⟩, ⟨2025, 3, 4⟩, 2, "approved", ""⟩
    (by simp) rfl rfl
  rw [h, if_neg (by decide)]
  rfl

/-- C5: `create_user_vacation` runs its checks in order with the first
failure winning: invalid range (start after end), then past start date,
then zero business days over the holidays of every year spanned, then
insufficient balance for the requested type against the balance of the
start date's year; only when all pass is the request returned, carrying
the computed business-day count and status "approved", appended to the
stored requests. Errors return no new state, so nothing is persisted on
failure. -/
theorem create_request_spec (employees : List Employee) (reqs : List VacationRequest)
    (eid nid : Int) (vtype : String) (s e : Date) (notes : String) (today : Date) (b : Balance)
    (hbal : get_vacation_balance employees reqs eid s.year today = .ok (some b)) :
    create_user_vacation employees reqs eid nid vtype s e notes today =
      (if Date.blt e s = true then .error .invalidRange
       else if Date.blt s today = true then .error .pastDate
       else
         let holidays := (List.range (e.year + 1 - s.year)).flatMap
            (fun i => get_corporate_holidays (s.year + i))
         let bd := calculate_business_days s e holidays
         if bd = 0 then .error .noBusinessDays
         else if (vtype = "vacation" ∧ (bd : Int) > b.vacation_available) ∨
             (vtype = "optional_holiday" ∧ (bd : Int) > b.optional_holidays_available) then
           .error .insufficientBalance
         else .ok (⟨nid, eid, vtype, s, e, (bd : Int), "approved", notes⟩,
           reqs ++ [⟨nid, eid, vtype, s, e, (bd : Int), "approved", notes⟩])) := by
  unfold create_user_vacation create_vacation_request
  rw [hbal]
  cases h1 : Date.blt e s
  · rw [if_neg Bool.false_ne_true, if_neg Bool.false_ne_true]
    cases h2 : Date.blt s today
    · rw [if_neg Bool.false_ne_true, if_neg Bool.false_ne_true]
      dsimp only
      by_cases hbd : calculate_business_days s e ((List.range (e.year + 1 - s.year)).flatMap
          (fun i => get_corporate_holidays (s.year + i))) = 0
      · rw [if_pos (by simp [hbd]), if_pos hbd]
      · rw [if_neg (by simp [hbd]), if_neg hbd]
        by_cases hv : vtype = "vacation"
        · subst hv
          by_cases hgt : (calculate_business_days s e ((List.range (e.year + 1 - s.year)).flatMap
              (fun i => get_corporate_holidays (s.year + i))) : Int) > b.vacation_available
          · rw [if_pos (by simp [hgt]), if_pos (Or.inl ⟨rfl, hgt⟩)]
          · rw [if_neg (by simp [hgt]), if_neg (by simp), if_neg (by simp [hgt])]
        · by_cases ho : vtype = "optional_holiday"
          · subst ho
            rw [if_neg (by simp)]
            by_cases hgt : (calculate_business_days s e
                ((List.range (e.year + 1 - s.year)).flatMap
                  (fun i => get_corporate_holidays (s.year + i))) : Int) >
                b.optional_holidays_available
            · rw [if_pos (by simp [hgt]), if_pos (Or.inr ⟨rfl, hgt⟩)]
            · rw [if_neg (by simp [hgt]), if_neg (by simp [hgt])]
          · rw [if_neg (by simp [hv]), if_neg (by simp [ho]), if_neg (by simp [hv, ho])]
    · rw [if_pos rfl, if_pos rfl]
  · rw [if_pos rfl, if_pos rfl]

/-- Witness for C5: a one-weekday request within balance is persisted
with business_days = 1 and status "approved". -/
theorem create_request_spec_witness :
    create_user_vacation [⟨1, some ⟨2023, 3, 10⟩⟩] [] 1 7 "vacation"
      ⟨2099, 1, 5⟩ ⟨2099, 1, 5⟩ "" ⟨2024, 6, 15⟩ =
      .ok (⟨7, 1, "vacation", ⟨2099, 1, 5⟩, ⟨2099, 1, 5⟩, 1, "approved", ""⟩,
        [⟨7, 1, "vacation", ⟨2099, 1, 5⟩, ⟨2099, 1, 5⟩, 1, "approved", ""⟩]) := by
  have h := create_request_spec [⟨1, some ⟨2023, 3, 10⟩⟩] [] 1 7 "vacation"
    ⟨2099, 1, 5⟩ ⟨2099, 1, 5⟩ "" ⟨2024, 6, 15⟩
    { vacation_accrued := 0, vacation_used := 0, vacation_available := 5
      vacation_carryover := 5, optional_holidays_used := 0
      optional_holidays_available := 3 } rfl
  rw [h]
  rfl

/-- C9: when `create_user_vacation` is called with a vacation type other
than "vacation" or "optional_holiday", no balance comparison occurs:
after the range, past-date and nonzero-business-day checks pass the
request is persisted with that type, and the insufficient-balance failure
is unreachable. -/
theorem create_unknown_type_spec (employees : List Employee) (reqs : List VacationRequest)
    (eid nid : Int) (vtype : String) (s e : Date) (notes : String) (today : Date) (b : Balance)
    (hbal : get_vacation_balance employees reqs eid s.year today = .ok (some b))
    (hv : vtype ≠ "vacation") (ho : vtype ≠ "optional_holiday") :
    create_user_vacation employees reqs eid nid vtype s e notes today =
      (if Date.blt e s = true then .error .invalidRange
       else if Date.blt s today = true then .error .pastDate
       else
         let holidays := (List.range (e.year + 1 - s.year)).flatMap
            (fun i => get_corporate_holidays (s.year + i))
         let bd := calculate_business_days s e holidays
         if bd = 0 then .error .noBusinessDays
         else .ok (⟨nid, eid, vtype, s, e, (bd : Int), "approved", notes⟩,
           reqs ++ [⟨nid, eid, vtype, s, e, (bd : Int), "approved", notes⟩])) ∧
    create_user_vacation employees reqs eid nid vtype s e notes today ≠
      .error .insufficientBalance := by
  have hmain : create_user_vacation employees reqs eid nid vtype s e notes today =
      (if Date.blt e s = true then .error .invalidRange
       else if Date.blt s today = true then .error .pastDate
       else
         let holidays := (List.range (e.year + 1 - s.year)).flatMap
            (fun i => get_corporate_holidays (s.year + i))
         let bd := calculate_business_days s e holidays
         if bd = 0 then .error .noBusinessDays
         else .ok (⟨nid, eid, vtype, s, e, (bd : Int), "approved", notes⟩,
           reqs ++ [⟨nid, eid, vtype, s, e, (bd : Int), "approved", notes⟩])) := by
    unfold create_user_vacation create_vacation_request
    rw [hbal]
    cases h1 : Date.blt e s
    · rw [if_neg Bool.false_ne_true, if_neg Bool.false_ne_true]
      cases h2 : Date.blt s today
      · rw [if_neg Bool.false_ne_true, if_neg Bool.false_ne_true]
        dsimp only
        by_cases hbd : calculate_business_days s e ((List.range (e.year + 1 - s.year)).flatMap
            (fun i => get_corporate_holidays (s.year + i))) = 0
        · rw [if_pos (by simp [hbd]), if_pos hbd]
        · rw [if_neg (by simp [hbd]), if_neg hbd, if_neg (by simp [hv]),
            if_neg (by simp [ho])]
      · rw [if_pos rfl, if_pos rfl]
    · rw [if_pos rfl, if_pos rfl]
  refine ⟨hmain, ?_⟩
  rw [hmain]
  split
  · simp
  · split
    · simp
    · dsimp only
      split
      · simp
      · simp

/-- Witness for C9: a "sick" request passes only the three date checks and
is persisted with that type; the result is not an insufficient-balance
error. -/
theorem create_unknown_type_spec_witness :
    create_user_vacation [⟨1, some ⟨2023, 3, 10⟩⟩] [] 1 7 "sick"
      ⟨2099, 1, 5⟩ ⟨2099, 1, 5⟩ "" ⟨2024, 6, 15⟩ =
      .ok (⟨7, 1, "sick", ⟨2099, 1, 5⟩, ⟨2099, 1, 5⟩, 1, "approved", ""⟩,
        [⟨7, 1, "sick", ⟨2099, 1, 5⟩, ⟨2099, 1, 5⟩, 1, "approved", ""⟩]) ∧
    create_user_vacation [⟨1, some ⟨2023, 3, 10⟩⟩] [] 1 7 "sick"
      ⟨2099, 1, 5⟩ ⟨2099, 1, 5⟩ "" ⟨2024, 6, 15⟩ ≠ .error .insufficientBalance := by
  have h := create_unknown_type_spec [⟨1, some ⟨2023, 3, 10⟩⟩] [] 1 7 "sick"
    ⟨2099, 1, 5⟩ ⟨2099, 1, 5⟩ "" ⟨2024, 6, 15⟩
    { vacation_accrued := 0, vacation_used := 0, vacation_available := 5
      vacation_carryover := 5, optional_holidays_used := 0
      optional_holidays_available := 3 } rfl (by decide) (by decide)
  exact ⟨by rw [h.1]; rfl, h.2⟩

end Vacay
